import Mathlib

/-!
Shallow embedding of the prompt-composition engine of `python-prompt`
(`src/prompt.py`, the one-shot CLI, and `src/async_prompt.py`, the socket
server).  Strings are modelled as Lean `String` (lists of unicode code
points), Python integers as `Int`/`Nat`, and the fallible parts
(subprocess invocations, the CLI compositor's format step) as `Except`
values.  Every definition mirrors one Python function or constructor of
the source; theorems about the frozen claims follow the definitions.
-/

namespace PyPrompt

/-- Python `\s` (unicode whitespace as matched by `re` on `str`). -/
def pyIsSpace (c : Char) : Bool :=
  c = ' ' || c = '\t' || c = '\n' || c = '\x0b' || c = '\x0c' || c = '\r' ||
  c = '\x1c' || c = '\x1d' || c = '\x1e' || c = '\x1f' || c = '\x85' ||
  c = '\xa0' || c.val = 0x1680 || (0x2000 ≤ c.val && c.val ≤ 0x200a) ||
  c.val = 0x2028 || c.val = 0x2029 || c.val = 0x202f || c.val = 0x205f ||
  c.val = 0x3000

/-- `leadsWith pat s` : `pat` is a leading segment of `s` (Python `str.startswith`). -/
def leadsWith : List Char → List Char → Bool
  | [], _ => true
  | _ :: _, [] => false
  | a :: as, b :: bs => a = b && leadsWith as bs

/-- Python `str.split("\n")`: split a character list at every newline. -/
def splitLines : List Char → List (List Char)
  | [] => [[]]
  | c :: t =>
    if c = '\n' then [] :: splitLines t
    else
      match splitLines t with
      | [] => [[c]]
      | L :: Ls => (c :: L) :: Ls

/-- Index of the first occurrence of `pat` in `s` (Python `str.find` / leftmost
regex literal match), `none` if absent. -/
def findLit (pat : List Char) : List Char → Option Nat
  | [] => if leadsWith pat [] then some 0 else none
  | c :: t =>
    if leadsWith pat (c :: t) then some 0
    else (findLit pat t).map (· + 1)

/-- Index of the last occurrence of character `c` in a list, if any. -/
def lastIdx (c : Char) : List Char → Option Nat
  | [] => none
  | d :: t =>
    match lastIdx c t with
    | some j => some (j + 1)
    | none => if d = c then some 0 else none

/-- Helper for Python `str.replace` with an empty pattern:
`"abc".replace("", r)` is `r ++ "a" ++ r ++ "b" ++ r ++ "c" ++ r`;
this produces everything after the leading `r`. -/
def interspRep (rep : List Char) : List Char → List Char
  | [] => []
  | c :: t => c :: rep ++ interspRep rep t

/-- Fuel-driven core of Python `str.replace` for a non-empty pattern:
left-to-right, non-overlapping.  Fuel `s.length + 1` always suffices since
every step consumes at least one character of `s`. -/
def pyReplaceFuel (pat rep : List Char) : Nat → List Char → List Char
  | 0, s => s
  | _ + 1, [] => []
  | n + 1, c :: t =>
    if pat ≠ [] ∧ leadsWith pat (c :: t) = true then
      rep ++ pyReplaceFuel pat rep n ((c :: t).drop pat.length)
    else
      c :: pyReplaceFuel pat rep n t

/-- Python `s.replace(pat, rep)` on character lists (all occurrences,
left-to-right, non-overlapping; empty pattern inserts `rep` at every
boundary, as in CPython). -/
def pyReplaceL (s pat rep : List Char) : List Char :=
  if pat = [] then rep ++ interspRep rep s
  else pyReplaceFuel pat rep (s.length + 1) s

/-- Python `s.replace(pat, rep)` on `String`. -/
def strReplace (s pat rep : String) : String :=
  String.mk (pyReplaceL s.data pat.data rep.data)

/-- Python `rule_char * n` for the rule character `"~"`. -/
def ruleRep (n : Nat) : String :=
  String.mk (List.replicate n '~')

/-- Python `sep.join`. -/
def myJoin (sep : String) : List String → String
  | [] => ""
  | [s] => s
  | s :: rest => s ++ sep ++ myJoin sep rest

/-- Python `needle in haystack` for strings (substring containment). -/
def pyIn (needle haystack : String) : Bool :=
  (findLit needle.data haystack.data).isSome

/-- Characters that `shlex.quote` treats as safe
(ASCII alphanumerics and `_ @ % + = : , . / -`). -/
def shlexSafe (c : Char) : Bool :=
  (c ≥ 'a' && c ≤ 'z') || (c ≥ 'A' && c ≤ 'Z') || (c ≥ '0' && c ≤ '9') ||
  c = '_' || c = '@' || c = '%' || c = '+' || c = '=' || c = ':' ||
  c = ',' || c = '.' || c = '/' || c = '-'

/-- Python `shlex.quote`. -/
def shlexQuote (s : String) : String :=
  if s = "" then "\x27\x27"
  else if s.data.all shlexSafe then s
  else "\x27" ++ strReplace s "\x27" "\x27\"\x27\"\x27" ++ "\x27"

/-- Python slice `s[-k:]` (for `k = 0` Python yields the whole string). -/
def lastChars (s : String) (k : Nat) : String :=
  if k = 0 then s else String.mk (s.data.drop (s.length - k))

/-! ### Data model: `PromptPart` and `PromptPartContainer`

A `PromptPart` carries the raw text, the numeric terminal color index
(`Colors.<name>.value` in the source), the `zero_width` flag and the
declared display width returned by `__len__` (`content.length` for every
fragment except `LastCommandFragment`, which overrides `__len__`). -/

structure PromptPart where
  content : String
  color : Nat
  zeroWidth : Bool
  declaredLen : Nat
  deriving DecidableEq, Repr

/-- The common constructor path (`PromptPart.__init__` plus assignments of
`content` and `color`): `zero_width` starts `True` and `__len__` is
`len(content)`. -/
def mkPart (content : String) (color : Nat) : PromptPart :=
  ⟨content, color, true, content.length⟩

/-- The module-level `NO_COLOR` constant of both source files. -/
def NO_COLOR : Bool := false

/-- `Colors.colorize` (the numeric value of the color is `v`). -/
def colorize (v : Nat) (s : String) (zeroWidth : Bool) : String :=
  if NO_COLOR then s
  else if zeroWidth then
    "%\x7b\\e[38;5;" ++ toString v ++ "m%\x7d" ++ s ++ "%\x7b\\e[0;m%\x7d"
  else
    "\\e[38;5;" ++ toString v ++ "m" ++ s ++ "\\e[0;m"

/-- `PromptPart.__str__`: colorless parts pass `content` through. -/
def partStr (p : PromptPart) : String :=
  if p.color = 0 then p.content else colorize p.color p.content p.zeroWidth

structure PromptPartContainer where
  separator : String
  parts : List PromptPart
  deriving DecidableEq, Repr

/-- `PromptPartContainer.__len__`: sum of the parts' declared widths
(the separator is not counted). -/
def containerLen (c : PromptPartContainer) : Nat :=
  (c.parts.map (·.declaredLen)).sum

/-- `PromptPartContainer.__str__`: join the rendered text of the parts with
non-empty content. -/
def containerStr (c : PromptPartContainer) : String :=
  myJoin c.separator ((c.parts.filter (fun p => p.content != "")).map partStr)

/-- `PromptPartContainer.uncolorized_str`. -/
def uncolorizedStr (c : PromptPartContainer) : String :=
  myJoin c.separator ((c.parts.filter (fun p => p.content != "")).map (·.content))

/-- The in-place loop of `embed_in_horizontal_rule` that sets
`part.zero_width = False` on every part of a container: this is the state
of the container after the loop has run. -/
def setNZW (c : PromptPartContainer) : PromptPartContainer :=
  { c with parts := c.parts.map (fun p => { p with zeroWidth := false }) }

/-! ### Git status classifier (`GitInfoFragment`) -/

/-- One line of `git status -s --porcelain=v1` matches
`GitInfoFragment.mod_indicator_re["added"]`, the multiline regex
`^\s?A  .*$`: an optional single whitespace character, then `A` and two
spaces, anchored at the start of a line. -/
def lineAdded (L : List Char) : Bool :=
  leadsWith "A  ".data L ||
    (match L with
     | [] => false
     | c :: t => pyIsSpace c && leadsWith "A  ".data t)

/-- `^\s?M .*$`. -/
def lineModified (L : List Char) : Bool :=
  leadsWith "M ".data L ||
    (match L with
     | [] => false
     | c :: t => pyIsSpace c && leadsWith "M ".data t)

/-- `^\s?D .*$`. -/
def lineDeleted (L : List Char) : Bool :=
  leadsWith "D ".data L ||
    (match L with
     | [] => false
     | c :: t => pyIsSpace c && leadsWith "D ".data t)

/-- `^[?]{2} .*$`: exactly two question marks and a space at line start. -/
def lineUnknown (L : List Char) : Bool :=
  leadsWith "?? ".data L

/-- `re.search(mod_indicator_re["added"], status_str, MULTILINE)` succeeds. -/
def mAdd (s : String) : Bool := (splitLines s.data).any lineAdded

def mMod (s : String) : Bool := (splitLines s.data).any lineModified

def mDel (s : String) : Bool := (splitLines s.data).any lineDeleted

def mUnk (s : String) : Bool := (splitLines s.data).any lineUnknown

/-- Whether the regex of bucket `mod` matches the status text (the body of
`GitInfoFragment._git_mod_info`). -/
def bucketMatches (mod : String) (s : String) : Bool :=
  match mod with
  | "added" => mAdd s
  | "modified" => mMod s
  | "deleted" => mDel s
  | "unknown" => mUnk s
  | _ => false

/-- `GitInfoFragment._git_mod_info`: the bucket names whose regex matched,
in the insertion order of `mod_indicator_re`. -/
def gitMods (s : String) : List String :=
  ["added", "modified", "deleted", "unknown"].filter (fun m => bucketMatches m s)

/-- The default `indicators` dictionary of `GitInfoFragment.__init__`. -/
def indicatorOf (mod : String) : Char :=
  match mod with
  | "added" => '+'
  | "modified" => '!'
  | "deleted" => '-'
  | _ => '?'

/-- Insert a character into a sorted list (code-point order). -/
def insertChar (c : Char) : List Char → List Char
  | [] => [c]
  | d :: ds => if c ≤ d then c :: d :: ds else d :: insertChar c ds

/-- Python `sorted` on characters (code-point order, stable). -/
def sortChars (l : List Char) : List Char :=
  l.foldr insertChar []

/-- `mod_symbols = "".join(sorted(indicators[mod] for mod in self._git_mod_info()))`. -/
def modSymbols (s : String) : List Char :=
  sortChars ((gitMods s).map indicatorOf)

/-- The modifier string: empty when no bucket matched, otherwise the sorted
glyphs wrapped in bars. -/
def gitModStr (s : String) : String :=
  if modSymbols s = [] then "" else "|" ++ String.mk (modSymbols s) ++ "|"

/-- The literal part of `GIT_COMMIT_OR_TAG_REGEX`
(`\* \(HEAD detached at (?P<name>.*)\)`) before the named group. -/
def litDetached : List Char := "* (HEAD detached at ".data

/-- Match `GIT_COMMIT_OR_TAG_REGEX` against one line: the literal must occur,
and a closing parenthesis must follow it on the same line; the greedy `.*`
extends to the last closing parenthesis of the line. -/
def lineDetached (L : List Char) : Option (List Char) :=
  match findLit litDetached L with
  | none => none
  | some i =>
    let rest := L.drop (i + litDetached.length)
    match lastIdx ')' rest with
    | none => none
    | some j => some (rest.take j)

/-- `re.search(GIT_COMMIT_OR_TAG_REGEX, git_info_str)`: the name of the
leftmost match, if any (`.` does not cross newlines, so the search is
line-by-line). -/
def detachedSearch (s : String) : Option String :=
  ((splitLines s.data).findSome? lineDetached).map String.mk

/-- `re.search(GIT_REGULAR_BRANCH_REGEX, git_info_str)` (`\* (?P<branch>.*)`):
the text after the leftmost `"* "` up to the end of its line. -/
def regularSearch (s : String) : Option String :=
  ((splitLines s.data).findSome?
    (fun L => (findLit "* ".data L).map (fun i => L.drop (i + 2)))).map String.mk

/-- `GitInfoFragment.is_tag`: Python `tag_str in stdout`, a plain substring
test on the raw output of `git tag`. -/
def isTag (tagStr : String) (tagsOut : String) : Bool :=
  pyIn tagStr tagsOut

/-- `GitInfoFragment._head_info` as a function of the two command outputs:
detached-head classification first (tag or plain detached name), then the
current-branch line, then the `"(B) master"` fallback. -/
def headInfo (branchOut tagsOut : String) : String :=
  match detachedSearch branchOut with
  | some name => (if isTag name tagsOut then "(T) " else "(D) ") ++ name
  | none =>
    match regularSearch branchOut with
    | some b => "(B) " ++ b
    | none => "(B) master"

/-- Outcome of one `subprocess.run(["git", ...], check=True, timeout=2)`
invocation: normal stdout, `CalledProcessError`, `TimeoutExpired`, or any
other exception (e.g. `FileNotFoundError` when the binary is absent). -/
inductive GitOutcome where
  | ok (stdout : String)
  | cpe
  | timeout
  | err
  deriving DecidableEq, Repr

/-- Python exceptions surfacing in the model. -/
inductive PyExc where
  | calledProcessError
  | timeoutExpired
  | fileNotFound
  | valueError
  deriving DecidableEq, Repr

instance {ε α : Type} [DecidableEq ε] [DecidableEq α] : DecidableEq (Except ε α) :=
  fun a b =>
    match a, b with
    | .ok x, .ok y =>
      if h : x = y then .isTrue (by rw [h]) else .isFalse (by intro hc; cases hc; exact h rfl)
    | .error x, .error y =>
      if h : x = y then .isTrue (by rw [h]) else .isFalse (by intro hc; cases hc; exact h rfl)
    | .ok _, .error _ => .isFalse (by intro hc; cases hc)
    | .error _, .ok _ => .isFalse (by intro hc; cases hc)

/-- Run one git command: its outcome either yields stdout or raises. -/
def runGit : GitOutcome → Except PyExc String
  | .ok s => .ok s
  | .cpe => .error .calledProcessError
  | .timeout => .error .timeoutExpired
  | .err => .error .fileNotFound

/-- The body of the `try` block of `GitInfoFragment.__init__`: status command
first (modifier classification), then the branch command, and — only on a
detached head — the tag command. Returns the formatted content
`"[<head><modifier>]"` or the exception. -/
def gitPipeline (status branch tags : GitOutcome) : Except PyExc String := do
  let st ← runGit status
  let modStr := gitModStr st
  let br ← runGit branch
  let head ←
    match detachedSearch br with
    | some _ => do
      let tg ← runGit tags
      pure (headInfo br tg)
    | none => pure (headInfo br "")
  pure ("[" ++ head ++ modStr ++ "]")

/-- `GitInfoFragment.__init__`: `CalledProcessError` and `TimeoutExpired` are
caught (`content` and `color` keep their defaults from `PromptPart.__init__`);
any other exception propagates to the caller. -/
def gitInfoFragment (status branch tags : GitOutcome) : Except PyExc PromptPart :=
  match gitPipeline status branch tags with
  | .ok content => .ok (mkPart content 4)
  | .error .calledProcessError => .ok (mkPart "" 0)
  | .error .timeoutExpired => .ok (mkPart "" 0)
  | .error e => .error e

/-! ### Fragment constructors -/

/-- `LastCommandFragment` of `async_prompt.py`:
content `"['" + quote(cmd).replace("\\", "\\\\") + "']"` for a non-empty
command, and the overriding `__len__` returning `len(last_cmd) + 2`. -/
def lastCommandFragmentAsync (cmd : String) : PromptPart :=
  { content :=
      if cmd != "" then "[\x27" ++ strReplace (shlexQuote cmd) "\\" "\\\\" ++ "\x27]"
      else ""
    color := 2
    zeroWidth := true
    declaredLen := if cmd != "" then cmd.length + 2 else 0 }

/-- `LastCommandFragment` of `prompt.py`: the replacement string is four
backslashes instead of two; `__len__` is the same. -/
def lastCommandFragmentCLI (cmd : String) : PromptPart :=
  { content :=
      if cmd != "" then "[\x27" ++ strReplace (shlexQuote cmd) "\\" "\\\\\\\\" ++ "\x27]"
      else ""
    color := 2
    zeroWidth := true
    declaredLen := if cmd != "" then cmd.length + 2 else 0 }

/-- `PWDFragment._get_shortened_pwd`: replace the HOME string by `~`
(all occurrences, Python `str.replace`), then truncate from the left when the
result exceeds `max_len`. -/
def getShortenedPwd (pwd home : String) (maxLen : Nat) : String :=
  let p := strReplace pwd home "~"
  if p.length > maxLen then "..." ++ lastChars p (maxLen - 3) else p

/-- `PWDFragment` as constructed by both renderers
(`color=Colors.teal`, `max_len=60`, `format_str="({})"`). -/
def pwdFragment (pwd home : String) : PromptPart :=
  mkPart ("(" ++ getShortenedPwd pwd home 60 ++ ")") 6

/-- `TimeFragment`: content is `datetime.now().strftime("[%H:%M:%S]")`,
supplied here as the already formatted clock string; color gray (21). -/
def timeFragment (timeStr : String) : PromptPart :=
  mkPart timeStr 21

/-- Last path segment: Python `path.split("/")[-1]`. -/
def lastSeg (s : String) : String :=
  (s.splitOn "/").getLastD ""

/-- `VirtualEnvFragment` of `async_prompt.py` with format `"[🐍{}]"` and color
teal, as built in `handle_client` (color is assigned before the emptiness
test, so an empty path still gets the color). -/
def venvFragmentServer (path : String) : PromptPart :=
  { content := if path != "" then "[🐍" ++ lastSeg path ++ "]" else ""
    color := 6
    zeroWidth := true
    declaredLen := if path != "" then ("[🐍" ++ lastSeg path ++ "]").length else 0 }

/-- The second `VirtualEnvFragment` of `handle_client` (`NODE_VIRTUAL_ENV`,
format `"[⬡ {}]"`, color green). -/
def nodeFragmentServer (path : String) : PromptPart :=
  { content := if path != "" then "[⬡ " ++ lastSeg path ++ "]" else ""
    color := 2
    zeroWidth := true
    declaredLen := if path != "" then ("[⬡ " ++ lastSeg path ++ "]").length else 0 }

/-- `VirtualEnvFragment` of `prompt.py`: reads `environ["VIRTUAL_ENV"]`; on
`KeyError` the constructor returns before assigning the color, so the
fragment keeps empty content and the default color. -/
def venvFragmentCLI (venv : Option String) : PromptPart :=
  match venv with
  | none => mkPart "" 0
  | some v => mkPart ("(" ++ lastSeg v ++ ")") 6

/-- `CondaEnvFragment` of `prompt.py` (`environ["CONDA_DEFAULT_ENV"]`). -/
def condaFragmentCLI (conda : Option String) : PromptPart :=
  match conda with
  | none => mkPart "" 0
  | some v => mkPart ("(" ++ lastSeg v ++ ")") 2

/-- `ColoredTextFragment("➤ ", Colors.red)`. -/
def arrowFragment : PromptPart :=
  mkPart "➤ " 1

/-- `ReturnStatusFragment`: color red; content `"{} ⏎".format(code)` only for
a non-zero exit code (color is assigned before the test). -/
def returnStatusFragment (code : Int) : PromptPart :=
  { content := if code != 0 then toString code ++ " ⏎" else ""
    color := 1
    zeroWidth := true
    declaredLen := (if code != 0 then toString code ++ " ⏎" else "").length }

/-! ### Horizontal-rule compositors -/

/-- `embed_in_horizontal_rule` of `async_prompt.py`: every part is forced to
non-zero-width mode, the fill is computed from the declared container widths,
and a strictly positive fill is split with the odd remainder on the left. -/
def embedAsync (w : Int) (lc cc rc : PromptPartContainer) : String :=
  let lc := setNZW lc
  let cc := setNZW cc
  let rc := setNZW rc
  let centerStr := containerStr cc
  let middle : Int := w - (containerLen lc : Int) - (containerLen rc : Int)
  let needed : Int := middle - (containerLen cc : Int)
  let center2 :=
    if 0 < needed then
      let fill := needed.toNat
      ruleRep (fill / 2 + fill % 2) ++ centerStr ++ ruleRep (fill / 2)
    else centerStr
  containerStr lc ++ center2 ++ containerStr rc

/-- Python `"{0:{fill}^{cols}}".format(s, ...)` for a string argument: a
negative width makes the spec start with a sign and raises `ValueError`; a
width not exceeding the length returns `s` unchanged; otherwise the padding
is split with the odd character on the right. -/
def pyFormatCenter (s : String) (cols : Int) : Except PyExc String :=
  if cols < 0 then .error .valueError
  else
    let width := cols.toNat
    if width ≤ s.length then .ok s
    else
      let pad := width - s.length
      .ok (ruleRep (pad / 2) ++ s ++ ruleRep (pad - pad / 2))

/-- `embed_in_horizontal_rule` of `prompt.py`: the plain center text is
centered by Python string formatting over the middle budget, then the plain
text is replaced by the colored rendering. -/
def embedCLI (w : Int) (lc cc rc : PromptPartContainer) : Except PyExc String := do
  let lc := setNZW lc
  let cc := setNZW cc
  let rc := setNZW rc
  let cols : Int := w - (containerLen lc : Int) - (containerLen rc : Int)
  let centered ← pyFormatCenter (uncolorizedStr cc) cols
  let center2 := strReplace centered (uncolorizedStr cc) (containerStr cc)
  pure (containerStr lc ++ center2 ++ containerStr rc)

/-! ### Renderers -/

/-- One render context: the environment values both delivery modes consume,
the terminal width, the formatted clock string, and the outcomes of the three
git invocations. -/
structure RenderCtx where
  pwd : String
  home : String
  lastCmd : String
  lastExitCode : Int
  virtualEnv : Option String
  condaEnv : Option String
  nodeVirtualEnv : Option String
  width : Int
  gitStatus : GitOutcome
  gitBranch : GitOutcome
  gitTags : GitOutcome
  timeStr : String
  deriving DecidableEq, Repr

/-- The `OUTPUT` template of `prompt.py` (single-quoted exports, no trailing
semicolon on the RPROMPT line). -/
def outputCLI (topline prompt rprompt : String) : String :=
  "function topline()\x7b\n    echo \x27" ++ topline ++ "\x27\n\x7d;\ntopline;\n" ++
  "export PROMPT=\x27" ++ prompt ++ "\x27;\n" ++
  "export RPROMPT=\x27" ++ rprompt ++ "\x27\n" ++
  "export LAST_CMD=\"\"\n"

/-- The `OUTPUT` template of `async_prompt.py` (exports wrapped in
`"$(echo "...")"`). -/
def outputServer (topline prompt rprompt : String) : String :=
  "function topline()\x7b\n    echo \x27" ++ topline ++ "\x27\n\x7d;\ntopline;\n" ++
  "export PROMPT=\"$(echo \"" ++ prompt ++ "\")\";\n" ++
  "export RPROMPT=\"$(echo \"" ++ rprompt ++ "\")\";\n" ++
  "export LAST_CMD=\"\"\n"

/-- `main` of `prompt.py`: builds the three containers, the prompt string
(space-joined fragments whose `__len__` is non-zero), the rprompt, and prints
the filled template (`print` appends a newline). -/
def cliRender (ctx : RenderCtx) : Except PyExc String := do
  let gitP ← gitInfoFragment ctx.gitStatus ctx.gitBranch ctx.gitTags
  let leftC : PromptPartContainer := ⟨"", [gitP, lastCommandFragmentCLI ctx.lastCmd]⟩
  let centerC : PromptPartContainer := ⟨"~", [pwdFragment ctx.pwd ctx.home]⟩
  let rightC : PromptPartContainer := ⟨"~", [timeFragment ctx.timeStr]⟩
  let promptStr :=
    myJoin " "
      (([venvFragmentCLI ctx.virtualEnv, condaFragmentCLI ctx.condaEnv, arrowFragment].filter
          (fun p => p.declaredLen != 0)).map partStr)
  let topline ← embedCLI ctx.width leftC centerC rightC
  let rprompt := partStr (returnStatusFragment ctx.lastExitCode)
  pure (outputCLI topline promptStr rprompt ++ "\n")

/-- `handle_client` of `async_prompt.py` for a fully parsed client
environment: same containers, but an empty separator for nothing, the
🐍/⬡ virtualenv fragments joined without separator, and the server template. -/
def serverRender (ctx : RenderCtx) : Except PyExc String := do
  let gitP ← gitInfoFragment ctx.gitStatus ctx.gitBranch ctx.gitTags
  let leftC : PromptPartContainer := ⟨"", [gitP, lastCommandFragmentAsync ctx.lastCmd]⟩
  let centerC : PromptPartContainer := ⟨"~", [pwdFragment ctx.pwd ctx.home]⟩
  let rightC : PromptPartContainer := ⟨"~", [timeFragment ctx.timeStr]⟩
  let promptStr :=
    myJoin ""
      (([venvFragmentServer (ctx.virtualEnv.getD ""),
         nodeFragmentServer (ctx.nodeVirtualEnv.getD ""), arrowFragment].filter
          (fun p => p.declaredLen != 0)).map partStr)
  let topline := embedAsync ctx.width leftC centerC rightC
  let rprompt := partStr (returnStatusFragment ctx.lastExitCode)
  pure (outputServer topline promptStr rprompt)

/-! ### Auxiliary predicates and concrete instances used by the theorems -/

/-- Containers whose parts carry no color escapes and whose declared width is
the default `len(content)` (no `__len__` override): for these the rendered
string is the plain text, so its character count is the visible width. -/
abbrev allPlain (c : PromptPartContainer) : Prop :=
  ∀ p ∈ c.parts, p.color = 0 ∧ p.declaredLen = p.content.length

/-- The separator contributes nothing to the rendered width: either it is
empty, or at most one part survives the non-empty-content filter. -/
abbrev sepFree (c : PromptPartContainer) : Prop :=
  c.separator = "" ∨ (c.parts.filter (fun p => p.content != "")).length ≤ 1

/-- Sorted in weakly increasing code-point order. -/
def ascB : List Char → Bool
  | [] => true
  | [_] => true
  | a :: b :: t => a ≤ b && ascB (b :: t)

/-- No duplicate characters. -/
def nodupB : List Char → Bool
  | [] => true
  | c :: t => !t.contains c && nodupB t

/-- A concrete render context shared by both delivery modes: same directory,
empty last command, exit code 0, no virtual environments, width 80, a clean
repository on branch `main`, and a fixed clock. -/
def demoCtx : RenderCtx :=
  { pwd := "/tmp", home := "/root", lastCmd := "", lastExitCode := 0,
    virtualEnv := none, condaEnv := none, nodeVirtualEnv := none,
    width := 80, gitStatus := .ok "", gitBranch := .ok "* main",
    gitTags := .ok "", timeStr := "[12:00:00]" }

/-- The same context at terminal width 81, which makes the top-line fill odd. -/
def demoCtxOdd : RenderCtx :=
  { demoCtx with width := 81 }

/-- A container holding one fragment that is still in zero-width mode. -/
def zwContainer : PromptPartContainer :=
  ⟨"", [mkPart "x" 1]⟩

/-- A 70-character absolute path (a slash, 68 `a`s, and a trailing slash). -/
def pwd70 : String :=
  String.mk ('/' :: List.replicate 68 'a') ++ "/"

/-! ### Basic lemmas about the string helpers -/

theorem leadsWith_append (pat rest : List Char) : leadsWith pat (pat ++ rest) = true := by
  induction pat with
  | nil => rfl
  | cons a as ih => simp [leadsWith, ih]

theorem leadsWith_ex {pat s : List Char} (h : leadsWith pat s = true) :
    ∃ rest, s = pat ++ rest := by
  induction pat generalizing s with
  | nil => exact ⟨s, rfl⟩
  | cons a as ih =>
    cases s with
    | nil => simp [leadsWith] at h
    | cons b bs =>
      simp only [leadsWith, Bool.and_eq_true, decide_eq_true_eq] at h
      obtain ⟨rest, hr⟩ := ih h.2
      exact ⟨rest, by rw [h.1, hr]; rfl⟩

theorem leadsWith_iff (pat s : List Char) :
    leadsWith pat s = true ↔ ∃ rest, s = pat ++ rest := by
  constructor
  · exact leadsWith_ex
  · rintro ⟨rest, rfl⟩
    exact leadsWith_append pat rest

theorem splitLines_noNL {l : List Char} (h : ∀ c ∈ l, c ≠ '\n') :
    splitLines l = [l] := by
  induction l with
  | nil => rfl
  | cons c t ih =>
    have hc : c ≠ '\n' := h c (by simp)
    have ht : splitLines t = [t] := ih (fun d hd => h d (by simp [hd]))
    simp [splitLines, hc, ht]

theorem findLit_zero {pat s : List Char} (h : leadsWith pat s = true) :
    findLit pat s = some 0 := by
  cases s with
  | nil => simp [findLit, h]
  | cons c t => simp [findLit, h]

theorem findLit_isSome_iff (pat s : List Char) :
    (findLit pat s).isSome = true ↔ ∃ pre post, s = pre ++ pat ++ post := by
  induction s with
  | nil =>
    cases pat with
    | nil => exact ⟨fun _ => ⟨[], [], rfl⟩, fun _ => rfl⟩
    | cons a as =>
      constructor
      · intro h
        rw [findLit] at h
        simp [leadsWith] at h
      · rintro ⟨pre, post, hpp⟩
        exfalso
        have hlen := congrArg List.length hpp
        simp only [List.length_nil, List.length_append, List.length_cons] at hlen
        omega
  | cons c t ih =>
    constructor
    · intro h
      rw [findLit] at h
      by_cases hl : leadsWith pat (c :: t) = true
      · obtain ⟨rest, hr⟩ := leadsWith_ex hl
        exact ⟨[], rest, by simpa using hr⟩
      · rw [if_neg hl] at h
        have h2 : (findLit pat t).isSome = true := by
          cases hm : findLit pat t with
          | none => rw [hm] at h; simp at h
          | some k => rfl
        obtain ⟨pre, post, hpp⟩ := ih.mp h2
        exact ⟨c :: pre, post, by simp [hpp]⟩
    · rintro ⟨pre, post, hpp⟩
      rw [findLit]
      by_cases hl : leadsWith pat (c :: t) = true
      · simp [hl]
      · rw [if_neg hl]
        cases pre with
        | nil =>
          exfalso
          apply hl
          rw [leadsWith_iff]
          exact ⟨post, by simpa using hpp⟩
        | cons d pre2 =>
          have h2 : (findLit pat t).isSome = true := by
            apply ih.mpr
            refine ⟨pre2, post, ?_⟩
            have h3 := hpp
            simp only [List.cons_append, List.cons.injEq] at h3
            exact h3.2
          cases hm : findLit pat t with
          | none => rw [hm] at h2; simp at h2
          | some k => rfl

theorem lastIdx_close (l : List Char) : lastIdx ')' (l ++ [')']) = some l.length := by
  induction l with
  | nil => rfl
  | cons d t ih => simp [lastIdx, ih]

theorem interspRep_nil (l : List Char) : interspRep [] l = l := by
  induction l with
  | nil => rfl
  | cons c t ih => simp [interspRep, ih]

theorem pyReplaceFuel_self (pat : List Char) :
    ∀ n s, s.length < n → pyReplaceFuel pat pat n s = s := by
  intro n
  induction n with
  | zero => intro s h; omega
  | succ m ih =>
    intro s h
    cases s with
    | nil => rfl
    | cons c t =>
      rw [pyReplaceFuel]
      by_cases hl : pat ≠ [] ∧ leadsWith pat (c :: t) = true
      · rw [if_pos hl]
        obtain ⟨rest, hr⟩ := leadsWith_ex hl.2
        have hplen : 0 < pat.length := by
          cases pat with
          | nil => exact absurd rfl hl.1
          | cons a as => simp
        have hd : (c :: t).drop pat.length = rest := by
          rw [hr, List.drop_left]
        rw [hd]
        have hlen : rest.length < m := by
          have hct : (c :: t).length = pat.length + rest.length := by
            rw [hr, List.length_append]
          simp only [List.length_cons] at hct h
          omega
        rw [ih rest hlen, ← hr]
      · rw [if_neg hl]
        have : t.length < m := by simp at h; omega
        rw [ih t this]

theorem replace_self (s pat : String) : strReplace s pat pat = s := by
  rw [strReplace, pyReplaceL]
  by_cases hp : pat.data = []
  · rw [if_pos hp, hp, interspRep_nil, List.nil_append]
  · rw [if_neg hp, pyReplaceFuel_self pat.data _ s.data (by omega)]

theorem pyReplaceFuel_whole (rep : List Char) (c : Char) (t : List Char) (n : Nat) :
    pyReplaceFuel (c :: t) rep (n + 1) (c :: t) = rep := by
  have hlead : leadsWith (c :: t) (c :: t) = true := by
    have := leadsWith_append (c :: t) []
    rwa [List.append_nil] at this
  rw [pyReplaceFuel, if_pos ⟨by simp, hlead⟩, List.drop_length]
  cases n with
  | zero => rw [pyReplaceFuel, List.append_nil]
  | succ m => rw [pyReplaceFuel, List.append_nil]

theorem replace_full (pat rep : String) : strReplace pat pat rep = rep := by
  rw [strReplace, pyReplaceL]
  by_cases hp : pat.data = []
  · rw [if_pos hp, hp]
    show String.mk (rep.data ++ interspRep rep.data []) = rep
    show String.mk (rep.data ++ []) = rep
    rw [List.append_nil]
  · rw [if_neg hp]
    cases hd : pat.data with
    | nil => exact absurd hd hp
    | cons c t =>
      rw [pyReplaceFuel_whole]

theorem ruleRep_len (n : Nat) : (ruleRep n).length = n := by
  show (List.replicate n '~').length = n
  exact List.length_replicate n '~'

theorem strLen_append (a b : String) : (a ++ b).length = a.length + b.length :=
  String.length_append a b

theorem myJoin_empty_len (xs : List String) :
    (myJoin "" xs).length = (xs.map String.length).sum := by
  induction xs with
  | nil => rfl
  | cons x t ih =>
    cases t with
    | nil => simp [myJoin]
    | cons y t2 =>
      show (x ++ "" ++ myJoin "" (y :: t2)).length = _
      rw [strLen_append, strLen_append, ih]
      simp

/-! ### Lemmas about parts and containers -/

theorem partStr_color0 {p : PromptPart} (h : p.color = 0) : partStr p = p.content := by
  rw [partStr, if_pos h]

theorem containerLen_setNZW (c : PromptPartContainer) :
    containerLen (setNZW c) = containerLen c := by
  rw [containerLen, containerLen, setNZW]
  simp only [List.map_map]
  rfl

theorem allPlain_setNZW {c : PromptPartContainer} (h : allPlain c) :
    allPlain (setNZW c) := by
  intro p hp
  rw [setNZW] at hp
  simp only [List.mem_map] at hp
  obtain ⟨q, hq, rfl⟩ := hp
  simpa using h q hq

theorem filterLen_map_upd (ps : List PromptPart) :
    ((ps.map (fun p => { p with zeroWidth := false })).filter
        (fun p => p.content != "")).length =
      (ps.filter (fun p => p.content != "")).length := by
  induction ps with
  | nil => rfl
  | cons p t ih =>
    by_cases h : (p.content != "") = true
    · simp [List.filter_cons, h, ih]
    · simp only [Bool.not_eq_true] at h
      simp [List.filter_cons, h, ih]

theorem sepFree_setNZW {c : PromptPartContainer} (h : sepFree c) :
    sepFree (setNZW c) := by
  rcases h with h | h
  · exact Or.inl h
  · right
    rw [setNZW]
    simpa [filterLen_map_upd] using h

theorem map_partStr_plain (ps : List PromptPart) (h : ∀ p ∈ ps, p.color = 0) :
    (ps.filter (fun p => p.content != "")).map partStr =
      (ps.filter (fun p => p.content != "")).map (·.content) := by
  induction ps with
  | nil => rfl
  | cons p t ih =>
    have hp := h p (by simp)
    have ht := ih (fun q hq => h q (by simp [hq]))
    by_cases hc : (p.content != "") = true
    · simp [List.filter_cons, hc, partStr_color0 hp, ht]
    · simp only [Bool.not_eq_true] at hc
      simp [List.filter_cons, hc, ht]

theorem containerStr_plain (c : PromptPartContainer) (h : ∀ p ∈ c.parts, p.color = 0) :
    containerStr c = uncolorizedStr c := by
  rw [containerStr, uncolorizedStr, map_partStr_plain c.parts h]

theorem sum_contentLen_filter (ps : List PromptPart) :
    ((ps.filter (fun p => p.content != "")).map (fun p => p.content.length)).sum =
      (ps.map (fun p => p.content.length)).sum := by
  induction ps with
  | nil => rfl
  | cons p t ih =>
    by_cases hc : (p.content != "") = true
    · simp [List.filter_cons, hc, ih]
    · simp only [bne_iff_ne, ne_eq, Decidable.not_not] at hc
      simp [List.filter_cons, hc, ih]

theorem sum_declaredLen_eq (ps : List PromptPart)
    (h : ∀ p ∈ ps, p.declaredLen = p.content.length) :
    (ps.map (·.declaredLen)).sum = (ps.map (fun p => p.content.length)).sum := by
  induction ps with
  | nil => rfl
  | cons p t ih =>
    have hp := h p (by simp)
    have ht := ih (fun q hq => h q (by simp [hq]))
    simp [hp, ht]

theorem uncolorizedStr_len (c : PromptPartContainer)
    (hd : ∀ p ∈ c.parts, p.declaredLen = p.content.length) (hs : sepFree c) :
    (uncolorizedStr c).length = containerLen c := by
  rw [containerLen, sum_declaredLen_eq c.parts hd, ← sum_contentLen_filter]
  rcases hs with hsep | hlen
  · rw [uncolorizedStr, hsep, myJoin_empty_len, List.map_map]
    rfl
  · rw [uncolorizedStr]
    cases hf : c.parts.filter (fun p => p.content != "") with
    | nil => simp [myJoin]
    | cons x t =>
      cases t with
      | nil => simp [myJoin]
      | cons y t2 =>
        rw [hf] at hlen
        simp at hlen

theorem containerStr_plain_len (c : PromptPartContainer) (hp : allPlain c)
    (hs : sepFree c) : (containerStr c).length = containerLen c := by
  rw [containerStr_plain c (fun p h => (hp p h).1)]
  exact uncolorizedStr_len c (fun p h => (hp p h).2) hs

theorem uncolorizedStr_single (sep : String) (p : PromptPart) :
    uncolorizedStr ⟨sep, [p]⟩ = p.content := by
  rw [uncolorizedStr]
  by_cases h : (p.content != "") = true
  · simp [List.filter_cons, h, myJoin]
  · simp only [bne_iff_ne, ne_eq, Decidable.not_not] at h
    simp [List.filter_cons, h, myJoin]

theorem containerStr_single (sep : String) (p : PromptPart) (h : p.color = 0) :
    containerStr ⟨sep, [p]⟩ = p.content := by
  rw [containerStr_plain _ (by intro q hq; simp at hq; rw [hq]; exact h)]
  exact uncolorizedStr_single sep p

/-! ### Lemmas about the git head classifier -/

theorem findSome_single {α β : Type} (f : α → Option β) (a : α) :
    List.findSome? f [a] = f a := by
  cases h : f a <;> simp [List.findSome?, h]

theorem detachedSearch_line (X : String) (hX : '\n' ∉ X.data) :
    detachedSearch ("* (HEAD detached at " ++ X ++ ")") = some X := by
  have hdata : ("* (HEAD detached at " ++ X ++ ")").data =
      litDetached ++ (X.data ++ [')']) := by
    rw [String.data_append, String.data_append, List.append_assoc]
    have h1 : (")" : String).data = [')'] := by decide
    rw [h1]
    rfl
  have hnl : ∀ c ∈ litDetached ++ (X.data ++ [')']), c ≠ '\n' := by
    intro c hc
    rcases List.mem_append.mp hc with h1 | h2
    · have hld : ∀ c ∈ litDetached, c ≠ '\n' := by decide
      exact hld c h1
    · rcases List.mem_append.mp h2 with h3 | h4
      · intro hcn; rw [hcn] at h3; exact hX h3
      · simp at h4; rw [h4]; decide
  rw [detachedSearch, hdata, splitLines_noNL hnl, findSome_single, lineDetached,
    findLit_zero (leadsWith_append litDetached (X.data ++ [')']))]
  simp only [Nat.zero_add]
  rw [List.drop_left, lastIdx_close]
  show Option.map String.mk (some (List.take X.data.length (X.data ++ [')']))) = some X
  rw [List.take_left]
  rfl

theorem regularSearch_line (name : String) (hn : '\n' ∉ name.data) :
    regularSearch ("* " ++ name) = some name := by
  have hdata : ("* " ++ name).data = "* ".data ++ name.data :=
    String.data_append _ _
  have hnl : ∀ c ∈ "* ".data ++ name.data, c ≠ '\n' := by
    intro c hc
    rcases List.mem_append.mp hc with h1 | h2
    · have hstar : ∀ x ∈ ("* " : String).data, x ≠ '\n' := by decide
      exact hstar c h1
    · intro hcn; rw [hcn] at h2; exact hn h2
  rw [regularSearch, hdata, splitLines_noNL hnl, findSome_single,
    findLit_zero (leadsWith_append "* ".data name.data)]
  show some (String.mk (List.drop (0 + 2) ("* ".data ++ name.data))) = some name
  have h2 : 0 + 2 = ("* ".data).length := by decide
  rw [h2, List.drop_left]

/-! ### Lemmas about the modifier classifier -/

theorem gitMods_eq (s : String) :
    gitMods s =
      (if mAdd s then ["added"] else []) ++ (if mMod s then ["modified"] else []) ++
        (if mDel s then ["deleted"] else []) ++ (if mUnk s then ["unknown"] else []) := by
  rw [gitMods]
  have hA : bucketMatches "added" s = mAdd s := rfl
  have hM : bucketMatches "modified" s = mMod s := rfl
  have hD : bucketMatches "deleted" s = mDel s := rfl
  have hU : bucketMatches "unknown" s = mUnk s := rfl
  simp only [List.filter_cons, List.filter_nil, hA, hM, hD, hU]
  cases mAdd s <;> cases mMod s <;> cases mDel s <;> cases mUnk s <;> simp

theorem modSymbols_eq (s : String) :
    modSymbols s =
      sortChars
        (((if mAdd s then ["added"] else []) ++ (if mMod s then ["modified"] else []) ++
            (if mDel s then ["deleted"] else []) ++ (if mUnk s then ["unknown"] else [])).map
          indicatorOf) := by
  rw [modSymbols, gitMods_eq]

set_option maxRecDepth 40000

/-! ### Claim theorems -/

/-- C1 (counterexample): the claim asserts that the horizontal-rule compositor
splits a strictly positive fill as `left_fill = fill // 2 + fill % 2`,
`right_fill = fill // 2` (odd remainder on the left).  That is the behaviour
of the server compositor, but the CLI compositor (`prompt.py`) centers the
text with Python string formatting, which puts the odd remainder on the
right: at width 9 with an empty left/right and the two-character center
`"ab"` the fill is 7, the claim predicts `~~~~ab~~~`, and the code produces
`~~~ab~~~~`. -/
theorem c1_counterexample :
    embedCLI 9 ⟨"", []⟩ ⟨"~", [mkPart "ab" 0]⟩ ⟨"~", []⟩ = .ok "~~~ab~~~~" ∧
    embedAsync 9 ⟨"", []⟩ ⟨"~", [mkPart "ab" 0]⟩ ⟨"~", []⟩ = "~~~~ab~~~" ∧
    ("~~~ab~~~~" : String) ≠ "~~~~ab~~~" := by
  refine ⟨by decide, by decide, by decide⟩

/-- C1 (amended): when the fill
`w - left.display_width() - right.display_width() - center.display_width()`
is strictly positive, the server compositor (`async_prompt.py`) pads the
rendered center with `fill / 2 + fill % 2` rule characters on the left and
`fill / 2` on the right, so the declared widths sum to exactly the terminal
width, and for undecorated containers (default colors, no separator
contribution, no `__len__` override) the emitted line has exactly `w`
characters; the CLI compositor (`prompt.py`) splits the same fill with the
odd remainder on the right: `fill / 2` rule characters on the left and
`fill - fill / 2` on the right. -/
theorem c1_amended :
    (∀ (w : Int) (lc cc rc : PromptPartContainer) (fill : Nat),
        w - (containerLen lc : Int) - (containerLen rc : Int) - (containerLen cc : Int) =
          (fill : Int) →
        0 < fill →
        (embedAsync w lc cc rc =
          containerStr (setNZW lc) ++
            (ruleRep (fill / 2 + fill % 2) ++ containerStr (setNZW cc) ++ ruleRep (fill / 2)) ++
            containerStr (setNZW rc)) ∧
        ((containerLen lc : Int) + ((fill / 2 + fill % 2 : Nat) : Int) + (containerLen cc : Int) +
            ((fill / 2 : Nat) : Int) + (containerLen rc : Int) = w) ∧
        (allPlain lc → allPlain cc → allPlain rc → sepFree lc → sepFree cc → sepFree rc →
          ((embedAsync w lc cc rc).length : Int) = w)) ∧
    (∀ (w : Int) (lc rc : PromptPartContainer) (sep : String) (p : PromptPart) (fill : Nat),
        p.color = 0 →
        w - (containerLen lc : Int) - (containerLen rc : Int) - (p.content.length : Int) =
          (fill : Int) →
        0 < fill →
        embedCLI w lc ⟨sep, [p]⟩ rc =
          .ok (containerStr (setNZW lc) ++
            (ruleRep (fill / 2) ++ p.content ++ ruleRep (fill - fill / 2)) ++
            containerStr (setNZW rc))) := by
  constructor
  · intro w lc cc rc fill hfill hpos
    have hmain : embedAsync w lc cc rc =
        containerStr (setNZW lc) ++
          (ruleRep (fill / 2 + fill % 2) ++ containerStr (setNZW cc) ++ ruleRep (fill / 2)) ++
          containerStr (setNZW rc) := by
      have heq : w - (containerLen (setNZW lc) : Int) - (containerLen (setNZW rc) : Int) -
          (containerLen (setNZW cc) : Int) = (fill : Int) := by
        rw [containerLen_setNZW, containerLen_setNZW, containerLen_setNZW]; exact hfill
      simp only [embedAsync, heq]
      rw [if_pos (by exact_mod_cast hpos), Int.toNat_natCast]
    refine ⟨hmain, by omega, ?_⟩
    intro hp1 hp2 hp3 hs1 hs2 hs3
    rw [hmain, strLen_append, strLen_append, strLen_append, strLen_append,
      ruleRep_len, ruleRep_len,
      containerStr_plain_len _ (allPlain_setNZW hp1) (sepFree_setNZW hs1),
      containerStr_plain_len _ (allPlain_setNZW hp2) (sepFree_setNZW hs2),
      containerStr_plain_len _ (allPlain_setNZW hp3) (sepFree_setNZW hs3),
      containerLen_setNZW, containerLen_setNZW, containerLen_setNZW]
    omega
  · intro w lc rc sep p fill hcol hfill hpos
    have hu : uncolorizedStr (setNZW ⟨sep, [p]⟩) = p.content := by
      show uncolorizedStr ⟨sep, [{ p with zeroWidth := false }]⟩ = p.content
      rw [uncolorizedStr_single]
    have hc2 : containerStr (setNZW ⟨sep, [p]⟩) = p.content := by
      show containerStr ⟨sep, [{ p with zeroWidth := false }]⟩ = p.content
      rw [containerStr_single _ _ (by simpa using hcol)]
    have hcols : w - (containerLen (setNZW lc) : Int) - (containerLen (setNZW rc) : Int) =
        (fill : Int) + (p.content.length : Int) := by
      rw [containerLen_setNZW, containerLen_setNZW]; omega
    simp only [embedCLI, hu, hc2, hcols]
    have hnn : ¬((fill : Int) + (p.content.length : Int) < 0) := by omega
    have hw : ((fill : Int) + (p.content.length : Int)).toNat = fill + p.content.length := by
      omega
    have hle : ¬(fill + p.content.length ≤ p.content.length) := by omega
    have hpad : fill + p.content.length - p.content.length = fill := by omega
    rw [pyFormatCenter, if_neg hnn, hw, if_neg hle, hpad]
    show Except.ok (containerStr (setNZW lc) ++
        strReplace (ruleRep (fill / 2) ++ p.content ++ ruleRep (fill - fill / 2))
          p.content p.content ++
        containerStr (setNZW rc)) = _
    rw [replace_self]

/-- C1 (witness): the server compositor at width 20 with declared widths
4, 2 and 4 splits the fill 10 into 5 and 5 and emits a 20-character line. -/
theorem c1_witness :
    embedAsync 20 ⟨"", [mkPart "abcd" 0]⟩ ⟨"~", [mkPart "ab" 0]⟩ ⟨"~", [mkPart "wxyz" 0]⟩ =
      containerStr (setNZW ⟨"", [mkPart "abcd" 0]⟩) ++
        (ruleRep 5 ++ containerStr (setNZW ⟨"~", [mkPart "ab" 0]⟩) ++ ruleRep 5) ++
        containerStr (setNZW ⟨"~", [mkPart "wxyz" 0]⟩) ∧
    ((embedAsync 20 ⟨"", [mkPart "abcd" 0]⟩ ⟨"~", [mkPart "ab" 0]⟩
        ⟨"~", [mkPart "wxyz" 0]⟩).length : Int) = 20 := by
  have h := c1_amended.1 20 ⟨"", [mkPart "abcd" 0]⟩ ⟨"~", [mkPart "ab" 0]⟩
    ⟨"~", [mkPart "wxyz" 0]⟩ 10 (by decide) (by decide)
  exact ⟨h.1, h.2.2 (by decide) (by decide) (by decide) (by decide) (by decide) (by decide)⟩

/-- C2 (counterexample): on the status lines `A  new.txt`, ` M changed.txt`,
`?? untracked.txt` the matched glyphs `+`, `!`, `?` sort by code point as
`! < + < ?`, so the code produces `|!+?|`, not the claimed `|+!?|`. -/
theorem c2_counterexample :
    gitModStr "A  new.txt\n M changed.txt\n?? untracked.txt" = "|!+?|" ∧
    ("|!+?|" : String) ≠ "|+!?|" := by
  refine ⟨by decide, by decide⟩

/-- C2 (amended): the modifier string consists of one glyph per bucket that
matched at least one status line (added `+`, modified `!`, deleted `-`,
untracked `?`), each bucket contributing at most one glyph however many lines
match it, sorted by glyph code point, joined without separator, and wrapped
in bars exactly when some bucket matched; on the three example lines the
result is `|!+?|` (not `|+!?|`), and duplicate `added` lines still yield a
single `+`. -/
theorem c2_amended : ∀ s : String,
    ascB (modSymbols s) = true ∧
    nodupB (modSymbols s) = true ∧
    (('+' ∈ modSymbols s) ↔ mAdd s = true) ∧
    (('!' ∈ modSymbols s) ↔ mMod s = true) ∧
    (('-' ∈ modSymbols s) ↔ mDel s = true) ∧
    (('?' ∈ modSymbols s) ↔ mUnk s = true) ∧
    (gitModStr s =
      if mAdd s || mMod s || mDel s || mUnk s then "|" ++ String.mk (modSymbols s) ++ "|"
      else "") ∧
    gitModStr "A  new.txt\n M changed.txt\n?? untracked.txt" = "|!+?|" ∧
    gitModStr "A  one.txt\nA  two.txt" = "|+|" := by
  intro s
  have h := modSymbols_eq s
  rw [gitModStr, h]
  cases mAdd s <;> cases mMod s <;> cases mDel s <;> cases mUnk s <;>
    simp_all <;> decide

/-- C3: head classification follows the code's precedence with the first
match winning: a line `* (HEAD detached at X)` yields `(T) X` when `X` is
present in the tag listing (substring test) and `(D) X` otherwise; else a
current-branch marker `* name` yields `(B) name`; else the fallback
`(B) master` (here shown for the empty branch listing of a fresh
repository). -/
theorem c3_head_classification (X name tags : String)
    (hX : '\n' ∉ X.data) (hname : '\n' ∉ name.data)
    (hnd : detachedSearch ("* " ++ name) = none) :
    headInfo ("* (HEAD detached at " ++ X ++ ")") tags =
      (if isTag X tags then "(T) " else "(D) ") ++ X ∧
    headInfo ("* " ++ name) tags = "(B) " ++ name ∧
    headInfo "" tags = "(B) master" := by
  refine ⟨?_, ?_, ?_⟩
  · simp only [headInfo, detachedSearch_line X hX]
  · simp only [headInfo, hnd, regularSearch_line name hname]
  · simp only [headInfo, show detachedSearch "" = none from by decide,
      show regularSearch "" = none from by decide]

/-- C3 (witness): branch listing `* (HEAD detached at v1.2.3)` with a tag
listing containing `v1.2.3` classifies as a tag, `* main` as branch `main`,
and the empty listing falls back to `(B) master`. -/
theorem c3_witness :
    '\n' ∉ ("v1.2.3" : String).data ∧ '\n' ∉ ("main" : String).data ∧
    detachedSearch ("* " ++ "main") = none ∧
    (headInfo ("* (HEAD detached at " ++ "v1.2.3" ++ ")") "v1.0\nv1.2.3" =
        (if isTag "v1.2.3" "v1.0\nv1.2.3" then "(T) " else "(D) ") ++ "v1.2.3" ∧
      headInfo ("* " ++ "main") "v1.0\nv1.2.3" = "(B) " ++ "main" ∧
      headInfo "" "v1.0\nv1.2.3" = "(B) master") :=
  ⟨by decide, by decide, by decide,
    c3_head_classification "v1.2.3" "main" "v1.0\nv1.2.3" (by decide) (by decide) (by decide)⟩

/-- C4 (counterexample): with terminal width 0 and a left container of
declared width 5 the fill is `-5 ≤ 0`, but the CLI compositor does not return
`left + unpadded center + right`: the negative middle budget makes the Python
format specifier start with a sign and `ValueError` is raised. -/
theorem c4_counterexample :
    embedCLI 0 ⟨"", [mkPart "abcde" 0]⟩ ⟨"~", []⟩ ⟨"~", []⟩ = .error .valueError ∧
    embedCLI 0 ⟨"", [mkPart "abcde" 0]⟩ ⟨"~", []⟩ ⟨"~", []⟩ ≠
      .ok (containerStr (setNZW ⟨"", [mkPart "abcde" 0]⟩) ++
        containerStr (setNZW ⟨"~", []⟩) ++ containerStr (setNZW ⟨"~", []⟩)) := by
  refine ⟨by decide, by decide⟩

/-- C4 (amended): when the center consumes the whole middle budget or
overflows it, the server compositor always returns
`left + unpadded center + right` with no truncation and no error; the CLI
compositor does the same as long as the middle budget
`w - left.display_width() - right.display_width()` is non-negative, but
raises `ValueError` when that budget is negative. -/
theorem c4_amended :
    (∀ (w : Int) (lc cc rc : PromptPartContainer),
        w - (containerLen lc : Int) - (containerLen rc : Int) - (containerLen cc : Int) ≤ 0 →
        embedAsync w lc cc rc =
          containerStr (setNZW lc) ++ containerStr (setNZW cc) ++ containerStr (setNZW rc)) ∧
    (∀ (w : Int) (lc cc rc : PromptPartContainer),
        0 ≤ w - (containerLen lc : Int) - (containerLen rc : Int) →
        (w - (containerLen lc : Int) - (containerLen rc : Int)).toNat ≤
          (uncolorizedStr (setNZW cc)).length →
        embedCLI w lc cc rc =
          .ok (containerStr (setNZW lc) ++ containerStr (setNZW cc) ++
            containerStr (setNZW rc))) ∧
    (∀ (w : Int) (lc cc rc : PromptPartContainer),
        w - (containerLen lc : Int) - (containerLen rc : Int) < 0 →
        embedCLI w lc cc rc = .error .valueError) := by
  refine ⟨?_, ?_, ?_⟩
  · intro w lc cc rc h
    have hneg : ¬(0 < w - (containerLen (setNZW lc) : Int) - (containerLen (setNZW rc) : Int) -
        (containerLen (setNZW cc) : Int)) := by
      rw [containerLen_setNZW, containerLen_setNZW, containerLen_setNZW]; omega
    simp only [embedAsync, if_neg hneg]
  · intro w lc cc rc h1 h2
    have h1' : ¬(w - (containerLen (setNZW lc) : Int) - (containerLen (setNZW rc) : Int) < 0) := by
      rw [containerLen_setNZW, containerLen_setNZW]; omega
    have h2' : (w - (containerLen (setNZW lc) : Int) -
        (containerLen (setNZW rc) : Int)).toNat ≤ (uncolorizedStr (setNZW cc)).length := by
      rw [containerLen_setNZW, containerLen_setNZW]; exact h2
    simp only [embedCLI, pyFormatCenter, if_neg h1', if_pos h2']
    show Except.ok (containerStr (setNZW lc) ++
        strReplace (uncolorizedStr (setNZW cc)) (uncolorizedStr (setNZW cc))
          (containerStr (setNZW cc)) ++ containerStr (setNZW rc)) = _
    rw [replace_full]
  · intro w lc cc rc h
    have h' : w - (containerLen (setNZW lc) : Int) - (containerLen (setNZW rc) : Int) < 0 := by
      rw [containerLen_setNZW, containerLen_setNZW]; exact h
    simp only [embedCLI, pyFormatCenter, if_pos h']
    rfl

/-- C4 (witness): at width 5 with an empty left/right and a six-character
center the middle budget is 5 and the center overflows it; the CLI compositor
emits the center unpadded and untruncated. -/
theorem c4_witness :
    0 ≤ (5 : Int) - (containerLen ⟨"", []⟩ : Int) - (containerLen ⟨"~", []⟩ : Int) ∧
    ((5 : Int) - (containerLen ⟨"", []⟩ : Int) - (containerLen ⟨"~", []⟩ : Int)).toNat ≤
      (uncolorizedStr (setNZW ⟨"~", [mkPart "abcdef" 0]⟩)).length ∧
    embedCLI 5 ⟨"", []⟩ ⟨"~", [mkPart "abcdef" 0]⟩ ⟨"~", []⟩ =
      .ok (containerStr (setNZW ⟨"", []⟩) ++ containerStr (setNZW ⟨"~", [mkPart "abcdef" 0]⟩) ++
        containerStr (setNZW ⟨"~", []⟩)) :=
  ⟨by decide, by decide,
    c4_amended.2.1 5 ⟨"", []⟩ ⟨"~", [mkPart "abcdef" 0]⟩ ⟨"~", []⟩ (by decide) (by decide)⟩

/-- C5 (counterexample): at a common render context (same directory, home,
last command, exit code, environment variables, width 80, identical git
command outputs and clock) the one-shot CLI and the server render different
shell snippets: the CLI exports `PROMPT='...'` while the server exports
`PROMPT="$(echo "...")"`, so the outputs differ even though the toplines
coincide. -/
theorem c5_counterexample : cliRender demoCtx ≠ serverRender demoCtx := by decide

/-- C5 (amended): the two implementations do not render the same output for a
common context: the export quoting of PROMPT/RPROMPT differs, the CLI
appends a trailing newline via `print`, the prompt fragments are joined with
a space (CLI) versus no separator (server), the secondary environment
fragment differs (`CONDA_DEFAULT_ENV` with `({})` versus `NODE_VIRTUAL_ENV`
with `[⬡ {}]`), and at odd fill even the topline differs because the CLI
centers with the odd rule character on the right while the server puts it on
the left (width 81: fill 55). -/
theorem c5_amended :
    cliRender demoCtxOdd ≠ serverRender demoCtxOdd ∧
    embedCLI 81 ⟨"", [mkPart "[(B) main]" 4]⟩ ⟨"~", [mkPart "(/tmp)" 6]⟩
        ⟨"~", [mkPart "[12:00:00]" 21]⟩ ≠
      .ok (embedAsync 81 ⟨"", [mkPart "[(B) main]" 4]⟩ ⟨"~", [mkPart "(/tmp)" 6]⟩
        ⟨"~", [mkPart "[12:00:00]" 21]⟩) := by
  refine ⟨by decide, by decide⟩

/-- C10: the code's tag check is a plain Python substring test (`tag_str in
stdout`): a detached-head name is classified as a tag exactly when it occurs
as a substring anywhere in the raw `git tag` output, not only as a complete
listed tag; consequently the name `1.2`, a proper substring of the
differently-named listed tag `v1.2.3`, is classified `(T) 1.2`. -/
theorem c10_is_tag_substring :
    (∀ X tags : String, isTag X tags = true ↔ ∃ pre post, tags.data = pre ++ X.data ++ post) ∧
    headInfo "* (HEAD detached at 1.2)" "v1.2.3" = "(T) 1.2" := by
  constructor
  · intro X tags
    rw [isTag, pyIn]
    exact findLit_isSome_iff X.data tags.data
  · decide

/-- C6 (counterexample): `GitInfoFragment.__init__` catches only
`CalledProcessError` and `TimeoutExpired`; an exception of any other type —
modelled here by the `FileNotFoundError` raised when the git binary is
absent — propagates to the caller instead of producing an empty-content
fragment. -/
theorem c6_counterexample :
    gitInfoFragment .err (.ok "") (.ok "") = .error .fileNotFound ∧
    gitInfoFragment .err (.ok "") (.ok "") ≠ .ok (mkPart "" 0) := by
  refine ⟨by decide, by decide⟩

/-- C6 (amended): a `CalledProcessError` or `TimeoutExpired` raised by any of
the three git invocations (status, branch, and — on a detached head — tag)
yields a fragment with empty content and default color instead of
propagating, but an exception of any other type (such as the
`FileNotFoundError` of an absent git binary) does propagate to the caller. -/
theorem c6_amended :
    (∀ b t, gitInfoFragment .cpe b t = .ok (mkPart "" 0)) ∧
    (∀ b t, gitInfoFragment .timeout b t = .ok (mkPart "" 0)) ∧
    (∀ s t, gitInfoFragment (.ok s) .cpe t = .ok (mkPart "" 0)) ∧
    (∀ s t, gitInfoFragment (.ok s) .timeout t = .ok (mkPart "" 0)) ∧
    (∀ s b n, detachedSearch b = some n →
      gitInfoFragment (.ok s) (.ok b) .cpe = .ok (mkPart "" 0)) ∧
    (∀ s b n, detachedSearch b = some n →
      gitInfoFragment (.ok s) (.ok b) .timeout = .ok (mkPart "" 0)) ∧
    (∀ b t, gitInfoFragment .err b t = .error .fileNotFound) := by
  refine ⟨fun b t => rfl, fun b t => rfl, fun s t => rfl, fun s t => rfl, ?_, ?_, fun b t => rfl⟩
  · intro s b n hnd
    simp only [gitInfoFragment, gitPipeline, runGit, bind, Except.bind, pure, Except.pure, hnd]
  · intro s b n hnd
    simp only [gitInfoFragment, gitPipeline, runGit, bind, Except.bind, pure, Except.pure, hnd]

/-- C6 (witness): with a detached-head branch listing, a timeout of the tag
command still produces the empty fragment. -/
theorem c6_witness :
    detachedSearch "* (HEAD detached at deadbeef)" = some "deadbeef" ∧
    gitInfoFragment (.ok "") (.ok "* (HEAD detached at deadbeef)") .timeout =
      .ok (mkPart "" 0) :=
  ⟨by decide,
    c6_amended.2.2.2.2.2.1 "" "* (HEAD detached at deadbeef)" "deadbeef" (by decide)⟩

/-- C7 (counterexample): the directory fragment does not replace only the
home-directory *prefix*: Python `str.replace` substitutes every occurrence of
the home string, so with home `/home/u` the path `/data/home/u/x` — which
does not start with the home directory and should be left unchanged by the
claimed prefix rule — is rendered as `/data~/x`. -/
theorem c7_counterexample :
    getShortenedPwd "/data/home/u/x" "/home/u" 60 = "/data~/x" ∧
    ("/data~/x" : String) ≠ "/data/home/u/x" := by
  refine ⟨by decide, by decide⟩

/-- C7 (amended): the fragment replaces every occurrence of the
home-directory string in the path with `~` (in particular a home prefix);
when the resulting string exceeds `max_len` it is truncated from the left to
exactly `max_len` characters, namely `...` followed by the final
`max_len - 3` characters, and otherwise it is returned unchanged. -/
theorem c7_amended (pwd home : String) (maxLen : Nat) (h3 : 3 < maxLen) :
    ((strReplace pwd home "~").length ≤ maxLen →
      getShortenedPwd pwd home maxLen = strReplace pwd home "~") ∧
    (maxLen < (strReplace pwd home "~").length →
      getShortenedPwd pwd home maxLen =
        "..." ++ lastChars (strReplace pwd home "~") (maxLen - 3) ∧
      (getShortenedPwd pwd home maxLen).length = maxLen) := by
  constructor
  · intro h
    simp only [getShortenedPwd]
    rw [if_neg (by omega)]
  · intro h
    have hmain : getShortenedPwd pwd home maxLen =
        "..." ++ lastChars (strReplace pwd home "~") (maxLen - 3) := by
      simp only [getShortenedPwd]
      rw [if_pos (by omega)]
    refine ⟨hmain, ?_⟩
    rw [hmain, strLen_append, lastChars, if_neg (by omega)]
    show 3 + (List.drop ((strReplace pwd home "~").length - (maxLen - 3))
      (strReplace pwd home "~").data).length = maxLen
    rw [List.length_drop]
    have hd : (strReplace pwd home "~").data.length = (strReplace pwd home "~").length := rfl
    omega

/-- C7 (witness): a 70-character path with `max_len = 60` is truncated to
exactly 60 characters, `...` plus the original final 57 characters (the home
string does not occur in it, so the replacement step leaves it unchanged). -/
theorem c7_witness :
    pwd70.length = 70 ∧
    strReplace pwd70 "/nohome" "~" = pwd70 ∧
    lastChars pwd70 57 = lastChars (strReplace pwd70 "/nohome" "~") 57 ∧
    (3 < 60 ∧ 60 < (strReplace pwd70 "/nohome" "~").length) ∧
    (getShortenedPwd pwd70 "/nohome" 60 =
        "..." ++ lastChars (strReplace pwd70 "/nohome" "~") 57 ∧
      (getShortenedPwd pwd70 "/nohome" 60).length = 60) :=
  ⟨by decide, by decide, by decide, ⟨by decide, by decide⟩,
    (c7_amended pwd70 "/nohome" 60 (by decide)).2 (by decide)⟩

/-- C8: the last-command fragment's declared width (`__len__`) is the length
of the raw unescaped command plus 2 for a non-empty command and 0 for an
empty one, in both implementations, independent of the characters added by
shell escaping: for the command `a b` the rendered content `[''a b'']` has 9
characters while the declared width is 5. -/
theorem c8_declared_width : ∀ cmd : String,
    ((lastCommandFragmentAsync cmd).declaredLen =
      if cmd = "" then 0 else cmd.length + 2) ∧
    ((lastCommandFragmentCLI cmd).declaredLen =
      if cmd = "" then 0 else cmd.length + 2) ∧
    (lastCommandFragmentAsync "a b").content.length = 9 ∧
    (lastCommandFragmentAsync "a b").declaredLen = 5 ∧
    (lastCommandFragmentCLI "").declaredLen = 0 := by
  intro cmd
  refine ⟨?_, ?_, by decide, by decide, by decide⟩ <;>
  · by_cases h : cmd = "" <;>
      simp [lastCommandFragmentAsync, lastCommandFragmentCLI, h]

/-- C9 (counterexample): fragments are not immutable through horizontal-rule
composition: the compositor's first loop assigns `part.zero_width = False`,
so a fragment constructed with `zero_width = True` has a different
`zero_width` value afterwards. -/
theorem c9_counterexample :
    (setNZW zwContainer).parts.map (·.zeroWidth) = [false] ∧
    zwContainer.parts.map (·.zeroWidth) = [true] ∧
    (setNZW zwContainer).parts ≠ zwContainer.parts := by
  refine ⟨by decide, by decide, by decide⟩

/-- C9 (amended): renderer operations leave each fragment's `content`,
`color` and declared width unchanged — container joins and width computation
are pure reads — but the horizontal-rule compositor sets every part's
`zero_width` field to `False`. -/
theorem c9_amended : ∀ c : PromptPartContainer,
    (setNZW c).parts.map (·.content) = c.parts.map (·.content) ∧
    (setNZW c).parts.map (·.color) = c.parts.map (·.color) ∧
    (setNZW c).parts.map (·.declaredLen) = c.parts.map (·.declaredLen) ∧
    (setNZW c).parts.map (·.zeroWidth) = List.replicate c.parts.length false ∧
    (setNZW c).separator = c.separator := by
  intro c
  refine ⟨?_, ?_, ?_, ?_, rfl⟩ <;>
  · show (c.parts.map _).map _ = _
    rw [List.map_map]
    induction c.parts with
    | nil => rfl
    | cons p t ih => simp [ih, List.replicate_succ]

end PyPrompt
